import Mathlib

/-!
Verification of the dirty-tracking / delta-computation core of an
object-document mapper (src/lib/model.js) against its specification.

The embedding below translates the relevant source functions:
  - Model.prototype.$__delta       -> Model.computeDelta
  - checkDivergentArray            -> Model.checkDivergentArray
  - Model.prototype.$__version     -> Model.versionStep
  - assignRawDocsToIdStructure     -> Model.assignRawDocsToIdStructure
JavaScript objects are embedded as insertion-ordered association lists,
JavaScript values as the inductive `JVal` (with an explicit `undefVal`).
-/

namespace Model

/-- Insertion-ordered association-list lookup (JS property read). -/
def alookup {α : Type} : List (String × α) → String → Option α
  | [], _ => none
  | (k2, v) :: rest, k => if k2 == k then some v else alookup rest k

/-- Insertion-ordered association-list write (JS property assignment:
overwrites in place, otherwise appends). -/
def aset {α : Type} : List (String × α) → String → α → List (String × α)
  | [], k, v => [(k, v)]
  | (k2, v2) :: rest, k, v =>
    if k2 == k then (k, v) :: rest else (k2, v2) :: aset rest k v

/-- Embedded JavaScript values as they appear in where/update expressions. -/
inductive JVal where
  | undefVal
  | nullv
  | num (n : Int)
  | str (s : String)
  | arr (elems : List JVal)
  | obj (fields : List (String × JVal))

/-- JavaScript truthiness of an embedded value. -/
def jsTruthy : JVal → Bool
  | .undefVal => false
  | .nullv => false
  | .num n => n != 0
  | .str s => s != ""
  | .arr _ => true
  | .obj _ => true

/-- Property read on an embedded object (non-objects have no properties). -/
def jget : JVal → String → Option JVal
  | .obj fs, k => alookup fs k
  | _, _ => none

/-- Property write on an embedded object; writing a property of a primitive
is silently ignored, as in (non-strict) JavaScript. -/
def jset : JVal → String → JVal → JVal
  | .obj fs, k, v => .obj (aset fs k v)
  | o, _, _ => o

/-- Two-level property read, e.g. `update.$inc[key]`. -/
def jget2 (o : JVal) (k1 k2 : String) : Option JVal :=
  match jget o k1 with
  | some v => jget v k2
  | none => none

/-- The value stored at a dirty path, split by the type tests performed in
`$__delta`: `undefined`, `null`, a tracked array carrying queued atomic
operations (`value._path && value._atomics`), a buffer wrapper
(`value._path && Buffer.isBuffer(value)`), or a plain value. -/
inductive DVal where
  | undefVal
  | null
  | tracked (atomics : List (String × JVal))
  | buffer (raw : JVal)
  | plain (v : JVal)

/-- One entry of the dirty-record list consumed by `$__delta`. -/
structure DirtyRec where
  path : String
  value : DVal

/-- The `pop.options.options` sub-record consulted by `checkDivergentArray`:
`limit` triggers by mere presence (`hasOwnProperty`), `skip` by truthiness
(it is a non-negative result count, so truthy means positive). -/
structure SubOptions where
  limit : Option Int
  skip : Nat

/-- The `pop.options.select` projection: either an object of field flags or
a textual field list. -/
inductive SelectVal where
  | sobj (fields : List (String × JVal))
  | sstr (s : String)

/-- JavaScript truthiness of a select value (objects are truthy, a string is
truthy when non-empty). -/
def selectTruthy : SelectVal → Bool
  | .sobj _ => true
  | .sstr s => s != ""

/-- Does the second character list start with the first. -/
def startsWithChars : List Char → List Char → Bool
  | [], _ => true
  | _, [] => false
  | a :: as, b :: bs => a == b && startsWithChars as bs

/-- Does the character list contain the first list as a contiguous run. -/
def containsChars (needle : List Char) : List Char → Bool
  | [] => needle.isEmpty
  | b :: bs => startsWithChars needle (b :: bs) || containsChars needle bs

/-- Does `hay` contain `needle` as a substring. -/
def containsSub (needle hay : String) : Bool :=
  containsChars needle.data hay.data

/-- The id-deselection test of `checkDivergentArray`:
`0 === pop.options.select._id || /\s?-_id\s?/.test(pop.options.select)`.
For a flag object the string test runs on "[object Object]" and never
matches; for a string the `_id` property is undefined, never `0`. The
optional whitespace in the pattern makes the test a plain substring check. -/
def selectExcludesId : SelectVal → Bool
  | .sobj fs =>
    match alookup fs "_id" with
    | some (.num n) => n == 0
    | _ => false
  | .sstr s => containsSub "-_id" s

/-- The population metadata `doc.populated(path, true)` returns (its
`options` member): a match filter, query sub-options, and a projection. -/
structure PopOptions where
  matchq : Option JVal
  options : Option SubOptions
  select : Option SelectVal

/-- Document state consumed by the delta engine: the dirty-record snapshot,
population metadata per populated path, the load projection
(`doc.$__.selected`), the version bitmask (`doc.$__.version`, WHERE = 1,
INC = 2), the schema version key (`none` embeds `versionKey: false`), the
`isSelected` capability and the raw value store. -/
structure MDoc where
  dirty : List DirtyRec
  populatedPaths : List (String × PopOptions)
  selected : Option (List (String × JVal))
  version : Nat
  versionKey : Option String
  isSel : String → Bool
  values : List (String × JVal)

/-- `path.split('.')[0]`: the prefix of the path before its first dot (the
whole path when it has none). -/
def topSegment (path : String) : String :=
  ⟨path.data.takeWhile (fun c => c != '.')⟩

/-- `doc.$__.selected[top] && doc.$__.selected[top].$elemMatch`: the top
segment was projected with a truthy `$elemMatch` clause. -/
def elemMatchProjected (sel : List (String × JVal)) (top : String) : Bool :=
  match alookup sel top with
  | some (.obj fs) =>
    match alookup fs "$elemMatch" with
    | some m => jsTruthy m
    | none => false
  | some _ => false
  | none => false

/-- The `check` expression of `checkDivergentArray`: a truthy match filter,
a present `limit` key, a truthy `skip`, or an id-deselecting projection. -/
def divergentOptions (p : PopOptions) : Bool :=
  (match p.matchq with | some m => jsTruthy m | none => false) ||
  (match p.options with | some o => o.limit.isSome | none => false) ||
  (match p.options with | some o => o.skip != 0 | none => false) ||
  (match p.select with
   | some s => selectTruthy s && selectExcludesId s
   | none => false)

/-- Truthiness of one queued atomic operator (`atomics.$set`, `atomics.$pop`). -/
def atomicTruthy (atomics : List (String × JVal)) (op : String) : Bool :=
  match alookup atomics op with
  | some v => jsTruthy v
  | none => false

/-- Embedding of `checkDivergentArray(doc, path, array)`: when the path was
not populated, an `$elemMatch` projection of its top segment flags the top
segment; when it was populated and the value is a tracked array, filtering
population options flag the path itself unless the queued atomics make the
write safe. -/
def checkDivergentArray (doc : MDoc) (path : String) (value : DVal) :
    Option String :=
  match alookup doc.populatedPaths path with
  | none =>
    match doc.selected with
    | some sel =>
      if elemMatchProjected sel (topSegment path) then some (topSegment path)
      else none
    | none => none
  | some p =>
    match value with
    | .tracked atomics =>
      if divergentOptions p &&
         (atomics.isEmpty || atomicTruthy atomics "$set" ||
          atomicTruthy atomics "$pop")
      then some path
      else none
    | _ => none

/-- Modelled from the spec: the repository's `operand` helper (the
PathValueCodec of spec section 2) is called by `$__delta` but is not among
the sources under src/. Per spec section 4.1 step 2b it writes the encoded
value into the update expression under the given operator, scoped to the
dotted path, and leaves the where clause untouched. -/
def operand (update : JVal) (op path : String) (v : JVal) : JVal :=
  jset update op (jset ((jget update op).getD (.obj [])) path v)

/-- Modelled from the spec: the repository's `handleAtomics` helper is
called by `$__delta` but is not among the sources under src/. Per spec
section 4.1 step 2b the queued atomic operators are merged verbatim into
the update, keyed by their own operator names, scoped to the path. -/
def handleAtomics (update : JVal) (path : String)
    (atomics : List (String × JVal)) : JVal :=
  atomics.foldl (fun u a => operand u a.1 path a.2) update

/-- One iteration of the dirty-record loop of `$__delta`, threading
`(where, delta, divergent)`. A flagged path is recorded and skipped; once
the divergence list is non-empty every later record is skipped; otherwise
the value is classified and its operand added. -/
def deltaStep (doc : MDoc) (acc : JVal × JVal × List String)
    (data : DirtyRec) : JVal × JVal × List String :=
  match checkDivergentArray doc data.path data.value with
  | some m => (acc.1, acc.2.1, acc.2.2 ++ [m])
  | none =>
    if !acc.2.2.isEmpty then acc
    else
      match data.value with
      | .undefVal => (acc.1, operand acc.2.1 "$unset" data.path (.num 1), acc.2.2)
      | .null => (acc.1, operand acc.2.1 "$set" data.path .nullv, acc.2.2)
      | .tracked atomics => (acc.1, handleAtomics acc.2.1 data.path atomics, acc.2.2)
      | .buffer raw => (acc.1, operand acc.2.1 "$set" data.path raw, acc.2.2)
      | .plain v => (acc.1, operand acc.2.1 "$set" data.path v, acc.2.2)

/-- `this.getValue(key)` over the embedded raw value store. -/
def getValue (doc : MDoc) (k : String) : JVal :=
  (alookup doc.values k).getD .undefVal

/-- The `where` argument of `$__version`: either the insert sentinel
(`true === where`) or an update where clause. -/
inductive WhereArg where
  | insertSentinel
  | upd (w : JVal)

/-- Result of the version step: the (possibly value-updated) document, the
where argument and the update expression after mutation. -/
structure VersionOut where
  doc : MDoc
  whereArg : WhereArg
  update : JVal

/-- Embedding of `Model.prototype.$__version(where, delta)`. On the insert
sentinel the version key is written as `0` both into the document's value
store and at the top level of `delta`. On an update nothing happens unless
the version key is selected; then the WHERE bit pins `where[key]` to the
current value and the INC bit writes `delta.$inc[key] = 1` (re-creating
`$inc` when it is absent or falsy, as `delta.$inc || (delta.$inc = {})`
does). -/
def versionStep (doc : MDoc) (w : WhereArg) (delta : JVal) : VersionOut :=
  match w with
  | .insertSentinel =>
    match doc.versionKey with
    | some key =>
      { doc := { doc with values := aset doc.values key (.num 0) },
        whereArg := .insertSentinel,
        update := jset delta key (.num 0) }
    | none => { doc := doc, whereArg := w, update := delta }
  | .upd wv =>
    match doc.versionKey with
    | none => { doc := doc, whereArg := w, update := delta }
    | some key =>
      if !(doc.isSel key) then { doc := doc, whereArg := w, update := delta }
      else
        let wv2 :=
          if doc.version &&& 1 == 1 then jset wv key (getValue doc key) else wv
        let incBase :=
          match jget delta "$inc" with
          | some v => if jsTruthy v then v else .obj []
          | none => .obj []
        let delta2 :=
          if doc.version &&& 2 == 2 then
            jset delta "$inc" (jset incBase key (.num 1))
          else delta
        { doc := doc, whereArg := .upd wv2, update := delta2 }

/-- Outcome of `$__delta`: the implicit-undefined no-op return, a
DivergentArrayError carrying the offending paths, or the
`[where, delta]` pair. -/
inductive DeltaOut where
  | noop
  | divergent (paths : List String)
  | delta (whereCl : JVal) (update : JVal)

/-- Embedding of `Model.prototype.$__delta()`. -/
def computeDelta (doc : MDoc) : DeltaOut :=
  if doc.dirty.isEmpty && doc.version != 3 then .noop
  else
    let acc := doc.dirty.foldl (deltaStep doc)
      (JVal.obj [], JVal.obj [], ([] : List String))
    if !acc.2.2.isEmpty then .divergent acc.2.2
    else if doc.version != 0 then
      let vo := versionStep doc (.upd acc.1) acc.2.1
      match vo.whereArg with
      | .upd wv => .delta wv vo.update
      | .insertSentinel => .delta acc.1 vo.update
    else .delta acc.1 acc.2.1

end Model

namespace Model

/-- Entries of the population id structure handled by
`assignRawDocsToIdStructure`: JS `undefined` (a sparse hole read back),
`null`, a scalar reference id, a fetched document (abstracted by name), or
a nested sequence. -/
inductive RId where
  | undefVal
  | nullv
  | id (n : Int)
  | doc (name : String)
  | arr (elems : List RId)

/-- `String(id)` for the entries that reach stringification (nested arrays
are handled before it). -/
def ridString : RId → String
  | .undefVal => "undefined"
  | .nullv => "null"
  | .id n => toString n
  | .doc s => s
  | .arr _ => ""

/-- JavaScript truthiness of a looked-up result entry (`if (doc)`): numbers
by value, documents and arrays as objects. -/
def ridTruthy : RId → Bool
  | .undefVal => false
  | .nullv => false
  | .id n => n != 0
  | .doc _ => true
  | .arr _ => true

/-- Sparse JS array assignment `l[i] = v`: in range it overwrites, past the
end it pads with holes. -/
def setSparse (l : List (Option RId)) (i : Nat) (v : RId) : List (Option RId) :=
  if i < l.length then l.set i (some v)
  else l ++ List.replicate (i - l.length) none ++ [some v]

/-- Trailing holes of `newOrder`: `forEach` never visits them, so they do
not survive the copy-back into `rawIds`. -/
def dropTrailingNone (l : List (Option RId)) : List (Option RId) :=
  (l.reverse.dropWhile Option.isNone).reverse

/-- The copy-back `rawIds.length = 0; newOrder.forEach(...)`: trailing holes
vanish, interior holes read back as `undefined`. -/
def finalizeOrder (l : List (Option RId)) : List RId :=
  (dropTrailingNone l).map (fun o => o.getD .undefVal)

/-- The per-scalar body of the loop of `assignRawDocsToIdStructure`
(everything after the `Array.isArray` branch), threading the sparse
`newOrder` accumulator. -/
def scalarStep (rds : List (String × RId)) (ro : List (String × Nat))
    (sorting recursed : Bool) (id : RId) (i : Nat)
    (acc : List (Option RId)) : List (Option RId) :=
  match id, sorting with
  | .nullv, false => acc ++ [some .nullv]
  | id, _ =>
    let sid := ridString id
    if recursed then
      match alookup rds sid with
      | some d =>
        if ridTruthy d then
          if sorting then
            match alookup ro sid with
            | some r => setSparse acc r d
            | none => acc
          else acc ++ [some d]
        else acc ++ [some id]
      | none => acc ++ [some id]
    else
      let d :=
        match alookup rds sid with
        | some v => if ridTruthy v then v else RId.nullv
        | none => RId.nullv
      setSparse acc i d

mutual

/-- The recursive call `assignRawDocsToIdStructure(id, ..., true)` made on a
nested sequence element: rebuild it with find semantics; a non-sequence is
left alone (this branch is never reached by the loop). -/
def assignSub (rds : List (String × RId)) (ro : List (String × Nat))
    (sortOpt : Bool) : RId → RId
  | .arr xs =>
    .arr (finalizeOrder
      (assignGo rds ro sortOpt (sortOpt && xs.length > 1) true xs 0 []))
  | e => e

/-- The indexed loop over `rawIds` building the sparse `newOrder`: nested
sequences recurse and are appended, scalars go through `scalarStep`. -/
def assignGo (rds : List (String × RId)) (ro : List (String × Nat))
    (sortOpt sorting recursed : Bool) :
    List RId → Nat → List (Option RId) → List (Option RId)
  | [], _, acc => acc
  | e :: rest, i, acc =>
    match e with
    | .arr _ =>
      assignGo rds ro sortOpt sorting recursed rest (i + 1)
        (acc ++ [some (assignSub rds ro sortOpt e)])
    | _ =>
      assignGo rds ro sortOpt sorting recursed rest (i + 1)
        (scalarStep rds ro sorting recursed e i acc)

end

/-- Embedding of `assignRawDocsToIdStructure(rawIds, resultDocs,
resultOrder, options, recursed)` for one (sub)structure, with the sort
flag already read off `options`; returns the rebuilt structure. -/
def assignRawDocs (rds : List (String × RId)) (ro : List (String × Nat))
    (sortOpt recursed : Bool) (rawIds : List RId) : List RId :=
  finalizeOrder
    (assignGo rds ro sortOpt (sortOpt && rawIds.length > 1) recursed rawIds 0 [])

/-- Options record of the reassembly entry point (`options.sort`
truthiness). -/
structure AssignOpts where
  sort : Bool

/-- Embedding of the top-level call `assignRawDocsToIdStructure(rawIds,
resultDocs, resultOrder, options)` (with `recursed` unset). -/
def assignRawDocsToIdStructure (rawIds : List RId)
    (resultDocs : List (String × RId)) (resultOrder : List (String × Nat))
    (options : AssignOpts) : List RId :=
  assignRawDocs resultDocs resultOrder options.sort false rawIds

end Model

namespace Model

theorem alookup_aset_self {α : Type} (m : List (String × α)) (k : String)
    (v : α) : alookup (aset m k v) k = some v := by
  induction m with
  | nil => simp [aset, alookup]
  | cons h t ih =>
    obtain ⟨k2, v2⟩ := h
    cases hk : (k2 == k) with
    | true => simp [aset, hk, alookup]
    | false => simp [aset, hk, alookup, ih]

/-- The divergence list built by the dirty-record loop is exactly the list
of flags returned by `checkDivergentArray`, in record order, appended to
whatever the accumulator already held. -/
theorem foldl_deltaStep_divergent (doc : MDoc) :
    ∀ (l : List DirtyRec) (acc : JVal × JVal × List String),
      (l.foldl (deltaStep doc) acc).2.2
        = acc.2.2 ++ l.filterMap (fun r => checkDivergentArray doc r.path r.value) := by
  intro l
  induction l with
  | nil => intro acc; simp
  | cons r t ih =>
    intro acc
    simp only [List.foldl_cons, List.filterMap_cons]
    cases hc : checkDivergentArray doc r.path r.value with
    | some m =>
      rw [ih]
      simp [deltaStep, hc]
    | none =>
      rw [ih]
      have h22 : (deltaStep doc acc r).2.2 = acc.2.2 := by
        simp only [deltaStep, hc]
        split
        · rfl
        · cases hv : r.value <;> simp [hv]
      rw [h22]

end Model

namespace Model

/-- Example document: dirty list empty, version bitmask INC only (2). -/
def versionOnlyIncDoc : MDoc :=
  { dirty := [], populatedPaths := [], selected := none,
    version := 2, versionKey := some "__v", isSel := fun _ => true,
    values := [("__v", .num 5)] }

/-- C1 fails as stated: a document with an empty dirty list and the INC bit
set (but not the WHERE bit) gets the no-op result from `computeDelta`, not
a delta with an increment. -/
theorem claim1_counterexample :
    versionOnlyIncDoc.dirty = []
    ∧ versionOnlyIncDoc.version &&& 2 = 2
    ∧ versionOnlyIncDoc.version &&& 1 = 0
    ∧ computeDelta versionOnlyIncDoc = .noop :=
  ⟨rfl, rfl, rfl, rfl⟩

/-- C1 amended: with an empty dirty list, `computeDelta` produces a delta
only when the version state is WHERE|INC (= 3); with the version key
configured and selected the delta then carries `update.$inc[key] == 1` and
pins the key in the where clause; the INC-only state (= 2) yields the
no-op result. -/
theorem claim1_versionOnlyDelta (doc : MDoc) (k : String)
    (hd : doc.dirty = []) (hk : doc.versionKey = some k)
    (hs : doc.isSel k = true) :
    (doc.version = 3 →
      computeDelta doc
        = .delta (.obj [(k, getValue doc k)])
            (.obj [("$inc", .obj [(k, .num 1)])]))
    ∧ (doc.version = 2 → computeDelta doc = .noop) := by
  constructor
  · intro hv
    simp [computeDelta, hd, hv, versionStep, hk, hs, jget, jset, aset,
      alookup]
    decide
  · intro hv
    simp [computeDelta, hd, hv]

/-- Concrete instance of the amended C1. -/
theorem claim1_witness :
    computeDelta { versionOnlyIncDoc with version := 3 }
      = .delta (.obj [("__v", .num 5)])
          (.obj [("$inc", .obj [("__v", .num 1)])]) :=
  (claim1_versionOnlyDelta { versionOnlyIncDoc with version := 3 }
    "__v" rfl rfl rfl).1 rfl

/-- C2: whenever any dirty record is flagged divergent, `computeDelta`
returns the divergence failure carrying exactly the flagged paths in
record order, and never a `{where, update}` pair. -/
theorem claim2_divergenceAborts (doc : MDoc)
    (h : doc.dirty.filterMap
      (fun r => checkDivergentArray doc r.path r.value) ≠ []) :
    computeDelta doc
      = .divergent (doc.dirty.filterMap
          (fun r => checkDivergentArray doc r.path r.value))
    ∧ ∀ w u, computeDelta doc ≠ .delta w u := by
  have hdirty : doc.dirty ≠ [] := by
    intro he
    rw [he] at h
    simp at h
  have hfold := foldl_deltaStep_divergent doc doc.dirty
    (JVal.obj [], JVal.obj [], [])
  have hmain : computeDelta doc
      = .divergent (doc.dirty.filterMap
          (fun r => checkDivergentArray doc r.path r.value)) := by
    have hne : doc.dirty.isEmpty = false := by
      cases hD : doc.dirty with
      | nil => exact absurd hD hdirty
      | cons a t => simp
    simp only [computeDelta, hne, Bool.false_and, if_neg Bool.false_ne_true]
    rw [hfold]
    simp only [List.nil_append]
    have hne2 : (doc.dirty.filterMap
        (fun r => checkDivergentArray doc r.path r.value)).isEmpty = false := by
      cases hF : doc.dirty.filterMap
          (fun r => checkDivergentArray doc r.path r.value) with
      | nil => exact absurd hF h
      | cons a t => simp
    simp [hne2]
  refine ⟨hmain, ?_⟩
  intro w u heq
  rw [hmain] at heq
  exact DeltaOut.noConfusion heq

/-- Example document: path "tags" was populated with a `limit` option and
fully replaced in memory, another plain path is dirty too. -/
def divergentSaveDoc : MDoc :=
  { dirty := [ { path := "name", value := .plain (.str "x") },
               { path := "tags", value := .tracked [] } ],
    populatedPaths :=
      [("tags", { matchq := none,
                  options := some { limit := some 5, skip := 0 },
                  select := none })],
    selected := none, version := 0, versionKey := some "__v",
    isSel := fun _ => true, values := [] }

/-- Concrete instance of C2. -/
theorem claim2_witness :
    computeDelta divergentSaveDoc = .divergent ["tags"] :=
  (claim2_divergenceAborts divergentSaveDoc (by decide)).1

end Model

namespace Model

/-- Example document for the insert version path. -/
def insertVersionDoc : MDoc :=
  { dirty := [], populatedPaths := [], selected := none,
    version := 0, versionKey := some "__v", isSel := fun _ => true,
    values := [] }

/-- C3 fails as stated: on the insert sentinel the version step writes the
version key at the top level of the update (`delta[key] = 0`), not under
`$set` — the claimed `update.$set[versionKey]` slot stays absent. -/
theorem claim3_counterexample :
    jget2 (versionStep insertVersionDoc .insertSentinel (.obj [])).update
        "$set" "__v" = none
    ∧ jget (versionStep insertVersionDoc .insertSentinel (.obj [])).update
        "__v" = some (.num 0) :=
  ⟨rfl, rfl⟩

/-- C3 amended: with a configured version key, the insert-sentinel call
leaves the where argument untouched, writes `update[versionKey] = 0` at
the top level of the (object) update, and stores `0` as the document's
version value. -/
theorem claim3_insertVersion (doc : MDoc) (k : String)
    (fs : List (String × JVal)) (hk : doc.versionKey = some k) :
    (versionStep doc .insertSentinel (.obj fs)).whereArg = .insertSentinel
    ∧ jget (versionStep doc .insertSentinel (.obj fs)).update k
        = some (.num 0)
    ∧ getValue (versionStep doc .insertSentinel (.obj fs)).doc k = .num 0 := by
  simp only [versionStep, hk]
  refine ⟨trivial, ?_, ?_⟩
  · simp [jget, jset, alookup_aset_self]
  · simp [getValue, alookup_aset_self]

/-- Concrete instance of the amended C3. -/
theorem claim3_witness :
    (versionStep insertVersionDoc .insertSentinel (.obj [])).whereArg
        = .insertSentinel
    ∧ jget (versionStep insertVersionDoc .insertSentinel (.obj [])).update
        "__v" = some (.num 0)
    ∧ getValue (versionStep insertVersionDoc .insertSentinel (.obj [])).doc
        "__v" = .num 0 :=
  claim3_insertVersion insertVersionDoc "__v" [] rfl

/-- Example document: "comments.0.text" is populated under harmless options
while "comments" was `$elemMatch`-projected at load time. -/
def elemMatchPopulatedDoc : MDoc :=
  { dirty := [], populatedPaths :=
      [("comments.0.text",
        { matchq := none, options := none, select := none })],
    selected :=
      some [("comments", .obj [("$elemMatch", .obj [("x", .num 1)])])],
    version := 0, versionKey := none, isSel := fun _ => true, values := [] }

/-- C4 fails as stated: for a populated path the `$elemMatch` projection
trigger is skipped entirely (the source guards it with `!pop`), so a write
to an `$elemMatch`-projected path is not flagged when the path was also
populated (here under non-filtering options). -/
theorem claim4_counterexample :
    elemMatchProjected
        [("comments", .obj [("$elemMatch", .obj [("x", .num 1)])])]
        (topSegment "comments.0.text") = true
    ∧ (alookup elemMatchPopulatedDoc.populatedPaths
        "comments.0.text").isSome = true
    ∧ checkDivergentArray elemMatchPopulatedDoc "comments.0.text"
        (.tracked []) = none :=
  ⟨rfl, rfl, rfl⟩

/-- C4 amended: the projection-filter trigger fires only when the path was
not populated; in that case any write to a path whose top-level segment
was `$elemMatch`-projected is flagged at the top-level segment. -/
theorem claim4_elemMatchUnpopulated (doc : MDoc) (path : String)
    (value : DVal) (sel : List (String × JVal))
    (hpop : alookup doc.populatedPaths path = none)
    (hsel : doc.selected = some sel)
    (hem : elemMatchProjected sel (topSegment path) = true) :
    checkDivergentArray doc path value = some (topSegment path) := by
  simp [checkDivergentArray, hpop, hsel, hem]

/-- Concrete instance of the amended C4. -/
theorem claim4_witness :
    checkDivergentArray
        { elemMatchPopulatedDoc with populatedPaths := [] }
        "comments.0.text" (.plain (.num 1)) = some "comments" :=
  claim4_elemMatchUnpopulated
    { elemMatchPopulatedDoc with populatedPaths := [] }
    "comments.0.text" (.plain (.num 1))
    [("comments", .obj [("$elemMatch", .obj [("x", .num 1)])])]
    rfl rfl rfl

/-- Example document for the update version path, INC bit set. -/
def incVersionDoc : MDoc :=
  { dirty := [], populatedPaths := [], selected := none,
    version := 2, versionKey := some "__v", isSel := fun _ => true,
    values := [("__v", .num 7)] }

/-- C5 fails as stated: a pre-existing `update.$inc["__v"] = 5` is
overwritten with `1`, not accumulated to `6`. -/
theorem claim5_counterexample :
    jget2 (versionStep incVersionDoc (.upd (.obj []))
        (.obj [("$inc", .obj [("__v", .num 5)])])).update "$inc" "__v"
      = some (.num 1)
    ∧ jget2 (versionStep incVersionDoc (.upd (.obj []))
        (.obj [("$inc", .obj [("__v", .num 5)])])).update "$inc" "__v"
      ≠ some (.num 6) :=
  ⟨rfl, by intro h; injection h with h2; injection h2 with h3; exact absurd h3 (by decide)⟩

/-- Sanity of the `$inc` slot of a concrete update object: absent, falsy
(in which case the source re-creates it), or an object. -/
def incSlotSane (fs : List (String × JVal)) : Bool :=
  match alookup fs "$inc" with
  | some (.obj _) => true
  | some v => !jsTruthy v
  | none => true

/-- C5 amended: on a non-insert save with the INC bit set and the version
key selected, the version step sets `update.$inc[versionKey]` to `1`
unconditionally (creating `$inc` when absent or falsy, overwriting any
pre-existing entry for the version key). -/
theorem claim5_incOverwrite (doc : MDoc) (k : String) (wv : JVal)
    (dfs : List (String × JVal)) (hk : doc.versionKey = some k)
    (hs : doc.isSel k = true) (hv : doc.version &&& 2 = 2)
    (hsane : incSlotSane dfs = true) :
    jget2 (versionStep doc (.upd wv) (.obj dfs)).update "$inc" k
      = some (.num 1) := by
  simp only [versionStep, hk, hs, Bool.not_true, Bool.false_eq_true,
    if_false, jget]
  have hbit : (doc.version &&& 2 == 2) = true := by simp [hv]
  simp only [hbit, if_true, jget2, jget, jset, alookup_aset_self]
  cases hlv : alookup dfs "$inc" with
  | none => simp [jset, alookup_aset_self]
  | some v =>
    cases v with
    | obj fs2 => simp [jsTruthy, jset, alookup_aset_self]
    | undefVal => simp [jsTruthy, jset, alookup_aset_self]
    | nullv => simp [jsTruthy, jset, alookup_aset_self]
    | num n =>
      have : jsTruthy (.num n) = false := by
        simp only [incSlotSane, hlv] at hsane
        simpa using hsane
      simp [this, jset, alookup_aset_self]
    | str s =>
      have : jsTruthy (.str s) = false := by
        simp only [incSlotSane, hlv] at hsane
        simpa using hsane
      simp [this, jset, alookup_aset_self]
    | arr es =>
      have : jsTruthy (.arr es) = false := by
        simp only [incSlotSane, hlv] at hsane
        simpa using hsane
      simp [this, jset, alookup_aset_self]

/-- Concrete instance of the amended C5 (pre-existing `$inc` overwritten). -/
theorem claim5_witness :
    jget2 (versionStep incVersionDoc (.upd (.obj []))
        (.obj [("$inc", .obj [("__v", .num 8)])])).update "$inc" "__v"
      = some (.num 1) :=
  claim5_incOverwrite incVersionDoc "__v" (.obj [])
    [("$inc", .obj [("__v", .num 8)])] rfl rfl rfl rfl

end Model

namespace Model

/-- The option check of `checkDivergentArray` holds exactly for a truthy
match filter, a present `limit` key, a positive `skip`, or a truthy
projection that deselects the identifier field. -/
theorem divergentOptions_eq_true_iff (p : PopOptions) :
    divergentOptions p = true ↔
      ((∃ m, p.matchq = some m ∧ jsTruthy m = true) ∨
       (∃ o, p.options = some o ∧ o.limit.isSome = true) ∨
       (∃ o, p.options = some o ∧ 0 < o.skip) ∨
       (∃ s, p.select = some s ∧ selectTruthy s = true ∧
             selectExcludesId s = true)) := by
  obtain ⟨mq, oo, se⟩ := p
  cases mq <;> cases oo <;> cases se <;>
    simp [divergentOptions, Nat.pos_iff_ne_zero, and_assoc, or_assoc]

/-- C7: for a populated path holding a tracked array whose queued atomics
are empty or include a replace or a pop, `checkDivergentArray` flags the
path itself exactly when the population options carried a truthy match
filter, a present `limit` key (any value, 0 included), a positive `skip`
(0 does not trigger), or a projection deselecting the identifier field. -/
theorem claim7_partialPopulationTrigger (doc : MDoc) (path : String)
    (p : PopOptions) (atomics : List (String × JVal))
    (hpop : alookup doc.populatedPaths path = some p)
    (hatom : (atomics.isEmpty || atomicTruthy atomics "$set" ||
              atomicTruthy atomics "$pop") = true) :
    checkDivergentArray doc path (.tracked atomics) = some path ↔
      ((∃ m, p.matchq = some m ∧ jsTruthy m = true) ∨
       (∃ o, p.options = some o ∧ o.limit.isSome = true) ∨
       (∃ o, p.options = some o ∧ 0 < o.skip) ∨
       (∃ s, p.select = some s ∧ selectTruthy s = true ∧
             selectExcludesId s = true)) := by
  rw [← divergentOptions_eq_true_iff]
  simp only [checkDivergentArray, hpop, hatom, Bool.and_true]
  cases hdv : divergentOptions p <;> simp [hdv]

/-- Concrete instance of C7: a `limit` option triggers divergence of a
fully replaced populated array with no queued atomics. -/
theorem claim7_witness :
    checkDivergentArray divergentSaveDoc "tags" (.tracked [])
      = some "tags" :=
  (claim7_partialPopulationTrigger divergentSaveDoc "tags"
      { matchq := none,
        options := some { limit := some 5, skip := 0 },
        select := none } [] rfl rfl).mpr
    (Or.inr (Or.inl ⟨{ limit := some 5, skip := 0 }, rfl, rfl⟩))

end Model

namespace Model

/-- The value a top-level ("findOne") position receives:
`resultDocs[sid] || null` — the matched document when present and truthy,
otherwise `null`, never the bare id. -/
def findOneLookup (rds : List (String × RId)) (sid : String) : RId :=
  match alookup rds sid with
  | some v => if ridTruthy v then v else RId.nullv
  | none => RId.nullv

/-- The value an unsorted "find" position receives: the matched document
when present and truthy, otherwise the original entry is kept. -/
def findModeLookup (rds : List (String × RId)) (e : RId) : RId :=
  match alookup rds (ridString e) with
  | some d => if ridTruthy d then d else e
  | none => e

theorem setSparse_append (l : List (Option RId)) (v : RId) :
    setSparse l l.length v = l ++ [some v] := by
  simp [setSparse]

theorem scalarStep_id_findOne (rds : List (String × RId))
    (ro : List (String × Nat)) (sorting : Bool) (n : Int) (i : Nat)
    (acc : List (Option RId)) :
    scalarStep rds ro sorting false (.id n) i acc
      = setSparse acc i (findOneLookup rds (toString n)) := by
  cases sorting <;> rfl

theorem scalarStep_id_find_nosort (rds : List (String × RId))
    (ro : List (String × Nat)) (n : Int) (i : Nat)
    (acc : List (Option RId)) :
    scalarStep rds ro false true (.id n) i acc
      = acc ++ [some (findModeLookup rds (.id n))] := by
  simp only [scalarStep, findModeLookup]
  cases h : alookup rds (ridString (.id n)) with
  | none => simp
  | some d => cases ht : ridTruthy d <;> simp [ht]

theorem assignGo_ids_findOne (rds : List (String × RId))
    (ro : List (String × Nat)) (so sorting : Bool) (ids : List Int) :
    ∀ (i : Nat) (acc : List (Option RId)), acc.length = i →
      assignGo rds ro so sorting false (ids.map RId.id) i acc
        = acc ++ (ids.map (fun n => findOneLookup rds (toString n))).map some := by
  induction ids with
  | nil => intro i acc h; simp [assignGo]
  | cons n t ih =>
    intro i acc h
    simp only [List.map_cons, assignGo]
    rw [scalarStep_id_findOne, ← h, setSparse_append]
    rw [ih (acc.length + 1)
      (acc ++ [some (findOneLookup rds (toString n))]) (by simp)]
    simp

theorem assignGo_ids_find_nosort (rds : List (String × RId))
    (ro : List (String × Nat)) (so : Bool) (ids : List Int) :
    ∀ (i : Nat) (acc : List (Option RId)),
      assignGo rds ro so false true (ids.map RId.id) i acc
        = acc ++ (ids.map (fun n => findModeLookup rds (RId.id n))).map some := by
  induction ids with
  | nil => intro i acc; simp [assignGo]
  | cons n t ih =>
    intro i acc
    simp only [List.map_cons, assignGo]
    rw [scalarStep_id_find_nosort]
    rw [ih (i + 1) (acc ++ [some (findModeLookup rds (.id n))])]
    simp

theorem dropTrailingNone_map_some (l : List RId) :
    dropTrailingNone (l.map some) = l.map some := by
  unfold dropTrailingNone
  cases hrev : (l.map some).reverse with
  | nil =>
    simp only [List.reverse_eq_nil_iff, List.map_eq_nil_iff] at hrev
    simp [hrev]
  | cons a t =>
    have ha : a.isNone = false := by
      have hmem : a ∈ (l.map some).reverse := by
        rw [hrev]; exact List.mem_cons_self a t
      rw [List.mem_reverse] at hmem
      obtain ⟨x, hx, he⟩ := List.mem_map.mp hmem
      rw [← he]; rfl
    rw [List.dropWhile_cons]
    simp only [ha, Bool.false_eq_true, if_false]
    rw [← hrev, List.reverse_reverse]

theorem finalizeOrder_map_some (l : List RId) :
    finalizeOrder (l.map some) = l := by
  unfold finalizeOrder
  rw [dropTrailingNone_map_some]
  rw [List.map_map]
  have hc : (fun o => Option.getD o RId.undefVal) ∘ some = (id : RId → RId) :=
    funext (fun x => rfl)
  rw [hc, List.map_id]

/-- C8: in top-level ("findOne") reassembly over scalar ids every position
is replaced by the matched document or by `null`, never left as the bare
id, regardless of sort; in particular ids `[1, 2, 3]` with results
`{1 : DocA, 3 : DocC}` and no sort give `[DocA, null, DocC]`. -/
theorem claim8_findOneAssignment :
    (∀ (rds : List (String × RId)) (ro : List (String × Nat))
       (opts : AssignOpts) (ids : List Int),
      assignRawDocsToIdStructure (ids.map RId.id) rds ro opts
        = ids.map (fun n => findOneLookup rds (toString n)))
    ∧ assignRawDocsToIdStructure [.id 1, .id 2, .id 3]
        [("1", .doc "DocA"), ("3", .doc "DocC")] [] ⟨false⟩
      = [.doc "DocA", .nullv, .doc "DocC"] := by
  constructor
  · intro rds ro opts ids
    unfold assignRawDocsToIdStructure assignRawDocs
    rw [assignGo_ids_findOne rds ro opts.sort _ ids 0 [] rfl]
    rw [List.nil_append, finalizeOrder_map_some]
  · rfl

/-- C9: in recursive ("find") reassembly without sort, each scalar id is
replaced by its matched document when found and kept as the original id
when absent; in particular `[[1, 2], [3]]` with results
`{1 : DocA, 2 : DocB}` give `[[DocA, DocB], [3]]`. -/
theorem claim9_findKeepsMissingId :
    (∀ (rds : List (String × RId)) (ro : List (String × Nat))
       (ids : List Int),
      assignRawDocs rds ro false true (ids.map RId.id)
        = ids.map (fun n => findModeLookup rds (RId.id n)))
    ∧ assignRawDocsToIdStructure [.arr [.id 1, .id 2], .arr [.id 3]]
        [("1", .doc "DocA"), ("2", .doc "DocB")] [] ⟨false⟩
      = [.arr [.doc "DocA", .doc "DocB"], .arr [.id 3]] := by
  constructor
  · intro rds ro ids
    unfold assignRawDocs
    rw [Bool.false_and, assignGo_ids_find_nosort rds ro false ids 0 []]
    rw [List.nil_append, finalizeOrder_map_some]
  · rfl

end Model

namespace Model

/-- C6: evaluating reassembly at the failing inputs. With a sort requested,
null entries survive: a trailing null in a recursive ("find") call is
pushed back untouched, and in a top-level ("findOne") call a null id is
reassigned as `null` at its position — sorting does not drop them, against
the rule stated by the claim and by the source's own comment ("sorting,
which always removes them"). The no-sort preservation half holds. -/
theorem claim6_sortKeepsNull :
    assignRawDocs [("1", .doc "DocA"), ("2", .doc "DocB")]
        [("1", 0), ("2", 1)] true true [.id 1, .id 2, .nullv]
      = [.doc "DocA", .doc "DocB", .nullv]
    ∧ assignRawDocsToIdStructure [.nullv, .id 1] [("1", .doc "DocA")]
        [("1", 0)] ⟨true⟩
      = [.nullv, .doc "DocA"]
    ∧ assignRawDocsToIdStructure [.nullv, .id 1] [("1", .doc "DocA")]
        [("1", 0)] ⟨false⟩
      = [.nullv, .doc "DocA"] :=
  ⟨rfl, rfl, rfl⟩

/-- C10 fails as stated: a single-element id structure whose one entry is a
nested sequence is still reordered by the sort ranks inside the recursive
call, so the sorted and unsorted results differ even though the outer
sequence has length 1. -/
theorem claim10_counterexample :
    assignRawDocsToIdStructure [.arr [.id 2, .id 1]]
        [("1", .doc "DocA"), ("2", .doc "DocB")] [("1", 0), ("2", 1)] ⟨true⟩
      = [.arr [.doc "DocA", .doc "DocB"]]
    ∧ assignRawDocsToIdStructure [.arr [.id 2, .id 1]]
        [("1", .doc "DocA"), ("2", .doc "DocB")] [("1", 0), ("2", 1)] ⟨false⟩
      = [.arr [.doc "DocB", .doc "DocA"]] :=
  ⟨rfl, rfl⟩

/-- Is the entry a non-sequence (scalar id, null, document or hole). -/
def isScalarEntry : RId → Bool
  | .arr _ => false
  | _ => true

/-- C10 amended: the `rawIds.length > 1` guard makes the sort flag
irrelevant for an empty id sequence or a one-element sequence whose entry
is not a nested sequence (nulls preserved, no rank placement); a nested
single entry still gets sorted inside its recursive call. -/
theorem claim10_singleScalarSortIrrelevant (rds : List (String × RId))
    (ro : List (String × Nat)) (rcd : Bool) (e : RId)
    (he : isScalarEntry e = true) :
    assignRawDocs rds ro true rcd [e] = assignRawDocs rds ro false rcd [e]
    ∧ assignRawDocs rds ro true rcd [] = assignRawDocs rds ro false rcd [] := by
  refine ⟨?_, rfl⟩
  cases e with
  | arr xs => exact absurd he (by simp [isScalarEntry])
  | undefVal => rfl
  | nullv => rfl
  | id n => rfl
  | doc s => rfl

/-- Concrete instance of the amended C10. -/
theorem claim10_witness :
    isScalarEntry (RId.id 7) = true
    ∧ assignRawDocs [] [] true false [RId.id 7]
        = assignRawDocs [] [] false false [RId.id 7] :=
  ⟨rfl, (claim10_singleScalarSortIrrelevant [] [] false (RId.id 7) rfl).1⟩

end Model
